import Mathlib

/-! Verification of vconfig.py, a vconfig-compatible wrapper around ip(8).

Modelling conventions for the shallow embedding:
* Python strings are Lean `String`; `str.strip()` is `pyStrip` (the ASCII
  whitespace characters; the Unicode extras are irrelevant to the claims).
* Python `str(i)` and f-string interpolation of integers are `intToDecimal` /
  `natToDecimal` (ordinary decimal rendering).
* `subprocess.run` is abstracted by an oracle `exec : Nat → ExecResult` giving
  the result of the k-th execution of the process; the embedded functions also
  return the list of command vectors actually executed, in order.
* `sys.stdin` is a list of input lines (`input()` consumes one line; an empty
  list raises `EOFError`); `sys.stdin.isatty()` is a boolean parameter.
* `die(msg)` (print "vconfig: msg" and `sys.exit(code)`) is the terminal
  outcome `Outcome.die msg code`.
* The naming-scheme state file is a `FileState`; an uncaught `OSError` while
  opening it is `Except.error`.
-/

-- ---------- Python-level string primitives ----------

/-- ASCII approximation of Python `str.isspace` on a single character. -/
def pyIsSpace (c : Char) : Bool :=
  c = ' ' || c = '\t' || c = '\n' || c = '\r' || c = '\x0b' || c = '\x0c'

/-- Python `str.strip()`: drop leading and trailing whitespace. -/
def pyStrip (s : String) : String :=
  String.mk (((s.data.dropWhile pyIsSpace).reverse.dropWhile pyIsSpace).reverse)

/-- Decimal digit character for a digit value `d < 10`. -/
def digitChar (d : Nat) : Char := Char.ofNat (48 + d)

/-- Fuel-driven decimal digit extraction, least significant digit first.
Any fuel at least the digit count is adequate; callers pass the number
itself.  Structural recursion, so it computes by `rfl`. -/
def natDigitsRevGo : Nat → Nat → List Nat
  | 0, n => [n]
  | fuel + 1, n => if n < 10 then [n] else (n % 10) :: natDigitsRevGo fuel (n / 10)

/-- Decimal digits of `n`, least significant first. -/
def natDigitsRev (n : Nat) : List Nat := natDigitsRevGo n n

/-- Python `str(n)` for a non-negative integer: decimal rendering. -/
def natToDecimal (n : Nat) : String :=
  String.mk ((natDigitsRev n).reverse.map digitChar)

/-- Python `str(i)` for an `int`. -/
def intToDecimal : Int → String
  | Int.ofNat n => natToDecimal n
  | Int.negSucc m => "-" ++ natToDecimal (m + 1)

def padZeros (k : Nat) : String := String.mk (List.replicate k '0')

/-- Python `f"{vid:04d}"`: zero-pad to width 4, the sign counting toward the width. -/
def pad4 : Int → String
  | Int.ofNat n => padZeros (4 - (natToDecimal n).length) ++ natToDecimal n
  | Int.negSucc m => "-" ++ (padZeros (3 - (natToDecimal (m + 1)).length) ++ natToDecimal (m + 1))

/-- `pat` is a prefix of the second list. -/
def isPrefixList : List Char → List Char → Bool
  | [], _ => true
  | _ :: _, [] => false
  | a :: p, b :: l => a = b && isPrefixList p l

/-- `pat` occurs as a contiguous substring of the second list. -/
def isInfixList (pat : List Char) : List Char → Bool
  | [] => isPrefixList pat []
  | b :: t => isPrefixList pat (b :: t) || isInfixList pat t

/-- `_INVALID_IFNAME_RE.search(s)` from vconfig.py: case-insensitive substring
search for "invalid ifname" or "not a valid ifname". -/
def _INVALID_IFNAME_RE_search (s : String) : Bool :=
  isInfixList ("invalid ifname".data) (s.data.map Char.toLower)
    || isInfixList ("not a valid ifname".data) (s.data.map Char.toLower)

/-- Characters `shlex.quote` leaves unquoted: ASCII word characters plus
the punctuation at-sign, percent, plus, equals, colon, comma, dot, slash, dash. -/
def shlexSafeChar (c : Char) : Bool :=
  c.isAlphanum || c = '_' || c = '@' || c = '%' || c = '+' || c = '=' ||
    c = ':' || c = ',' || c = '.' || c = '/' || c = '-'

def squoteChar : Char := Char.ofNat 39

def dquoteChar : Char := Char.ofNat 34

/-- Python `shlex.quote`. -/
def shlexQuote (s : String) : String :=
  if s = "" then String.mk [squoteChar, squoteChar]
  else if s.data.all shlexSafeChar then s
  else
    String.mk ([squoteChar]
      ++ s.data.flatMap (fun c =>
            if c = squoteChar then [squoteChar, dquoteChar, squoteChar, dquoteChar, squoteChar]
            else [c])
      ++ [squoteChar])

/-- The f-string fallback text of the `die` calls: the literal
`command failed: ` followed by the shlex-quoted tokens joined by spaces. -/
def cmdFailedMsg (cmd : List String) : String :=
  "command failed: " ++ String.intercalate " " (cmd.map shlexQuote)

/-- Models the Python expression `stderrText.strip() or cmdFailedMsg cmd`
(the argument of `die` on a failed execution). -/
def dieMsgOf (stderrText : String) (cmd : List String) : String :=
  if pyStrip stderrText = "" then cmdFailedMsg cmd else pyStrip stderrText

-- ---------- module-level constants of vconfig.py ----------

def STATE_FILE : String := "/run/vconfig_name_type"

def DEFAULT_NAME_TYPE : String := "DEV_PLUS_VID_NO_PAD"

def ALLOWED_NAME_TYPES : List String :=
  ["VLAN_PLUS_VID", "VLAN_PLUS_VID_NO_PAD", "DEV_PLUS_VID", "DEV_PLUS_VID_NO_PAD"]

def IFNAMSIZ : Nat := 16

def MAX_IFNAME_LEN : Nat := IFNAMSIZ - 1

-- ---------- ifname recovery helpers ----------

/-- `_valid_ifname` from vconfig.py. -/
def _valid_ifname (name : String) : Bool :=
  if name.length = 0 ∨ MAX_IFNAME_LEN < name.length then false
  else if name.data.any pyIsSpace then false
  else if name.data.any (fun c => c == '/') then false
  else true

/-- `_prompt_for_ifname` from vconfig.py: consume input lines until one yields a
locally valid name (an empty entry falls back to the suggestion); `none` models
the `EOFError` path, on which the caller dies. -/
def _prompt_for_ifname (suggest : Option String) : List String → Option (String × List String)
  | [] => none
  | line :: rest =>
    let entered := pyStrip line
    let name := if entered ≠ "" then entered else suggest.getD ""
    if _valid_ifname name then some (name, rest) else _prompt_for_ifname suggest rest

/-- Python `list.index`, returning `none` instead of raising `ValueError`. -/
def listIndex (x : String) : List String → Option Nat
  | [] => none
  | a :: l => if a = x then some 0 else (listIndex x l).map (· + 1)

/-- `_replace_or_inject_name` from vconfig.py. -/
def _replace_or_inject_name (cmd : List String) (new_name : String) : List String :=
  match listIndex "name" cmd with
  | some i => if i + 1 < cmd.length then cmd.set (i + 1) new_name else cmd ++ [new_name]
  | none =>
    match listIndex "type" cmd with
    | some j => cmd.take j ++ ["name", new_name] ++ cmd.drop j
    | none => cmd ++ ["name", new_name]

/-- `_extract_name_from_cmd` from vconfig.py. -/
def _extract_name_from_cmd (cmd : List String) : Option String :=
  match listIndex "name" cmd with
  | some i => if h : i + 1 < cmd.length then some (cmd[i + 1]) else none
  | none => none

-- ---------- execution model ----------

/-- Result of one `subprocess.run` call: exit code and captured output. -/
structure ExecResult where
  returncode : Int
  stderr : String
  stdout : String
deriving DecidableEq, Repr

/-- Terminal observable behavior of a subcommand: a normal return carrying the
final interface name, or `die msg code` (message printed with the `vconfig: `
prefix, process exits with `code`). -/
inductive Outcome where
  | ok (name : String)
  | die (msg : String) (code : Int)
deriving DecidableEq, Repr

/-- The prompt consumes at least one input line whenever it returns a name. -/
def prompt_shrinks :
    ∀ (sugg : Option String) (inputs : List String) (n : String) (rest : List String),
      _prompt_for_ifname sugg inputs = some (n, rest) → rest.length < inputs.length := by
  intro sugg inputs
  induction inputs with
  | nil => intro n rest h; simp [_prompt_for_ifname] at h
  | cons line tail ih =>
    intro n rest h
    simp only [_prompt_for_ifname] at h
    split at h <;> split at h <;>
      first
      | (cases h; simp)
      | exact Nat.lt_trans (ih n rest h) (by simp)

/-- The inner interactive `while True` loop of `run_ip_with_ifname_retry`:
prompt for a name, rewrite the command, execute; loop again while ip(8) keeps
reporting an invalid ifname. `k` is the index of the next execution in the
oracle; the second component is the list of commands executed by the loop. -/
def interactiveRetryLoop (exec : Nat → ExecResult) (suggest : Option String)
    (k : Nat) (cmd : List String) (inputs : List String) :
    Outcome × List (List String) :=
  match _h : _prompt_for_ifname suggest inputs with
  | none => (Outcome.die "Aborted: no valid interface name provided." 1, [])
  | some (new_name, rest) =>
    let cmd2 := _replace_or_inject_name cmd new_name
    let proc2 := exec k
    if proc2.returncode = 0 then (Outcome.ok new_name, [cmd2])
    else if _INVALID_IFNAME_RE_search (proc2.stderr ++ proc2.stdout) then
      ((interactiveRetryLoop exec suggest (k + 1) cmd2 rest).1,
        cmd2 :: (interactiveRetryLoop exec suggest (k + 1) cmd2 rest).2)
    else (Outcome.die (dieMsgOf proc2.stderr cmd2) 1, [cmd2])
termination_by inputs.length
decreasing_by all_goals exact prompt_shrinks suggest inputs new_name rest _h

/-- `run_ip_with_ifname_retry` from vconfig.py.  The outer `while True` loop of
the source executes its body at most once (every branch of the body returns,
dies, or stays inside the inner interactive loop), so it is embedded as a
single pass whose interactive branch calls `interactiveRetryLoop`. -/
def run_ip_with_ifname_retry (exec : Nat → ExecResult) (isatty : Bool)
    (inputs : List String) (cmd : List String) (vid : Option Int) :
    Outcome × List (List String) :=
  let proc := exec 0
  if proc.returncode = 0 then
    (Outcome.ok ((_extract_name_from_cmd cmd).getD ""), [cmd])
  else if _INVALID_IFNAME_RE_search (proc.stderr ++ proc.stdout) then
    let suggested := vid.map (fun v => "vlan" ++ intToDecimal v)
    if !isatty then
      let auto0 := suggested.getD "vlan0"
      let auto := if _valid_ifname auto0 then auto0 else "vlan0"
      let cmd2 := _replace_or_inject_name cmd auto
      if (exec 1).returncode = 0 then (Outcome.ok auto, [cmd, cmd2])
      else (Outcome.die (dieMsgOf proc.stderr cmd2) 1, [cmd, cmd2])
    else
      ((interactiveRetryLoop exec suggested 1 cmd inputs).1,
        cmd :: (interactiveRetryLoop exec suggested 1 cmd inputs).2)
  else (Outcome.die (dieMsgOf proc.stderr cmd) 1, [cmd])

-- ---------- naming-scheme store ----------

/-- Observable state of the naming-scheme state file at `STATE_FILE`. -/
inductive FileState where
  | missing
  | unreadable
  | contents (s : String)
deriving DecidableEq, Repr

/-- `read_name_type` from vconfig.py.  Only `FileNotFoundError` is caught; any
other `OSError` while opening a present but unreadable file (e.g.
`PermissionError`) propagates out of the function, modelled as `Except.error`. -/
def read_name_type : FileState → Except String String
  | FileState.missing => Except.ok DEFAULT_NAME_TYPE
  | FileState.unreadable => Except.error "PermissionError"
  | FileState.contents s =>
    let t := pyStrip s
    if t ∈ ALLOWED_NAME_TYPES then Except.ok t else Except.ok DEFAULT_NAME_TYPE

/-- `write_name_type` from vconfig.py (the `os.makedirs` call has no observable
effect on the modelled state).  An unknown scheme dies; otherwise the file now
holds exactly the scheme literal. -/
def write_name_type (t : String) (_st : FileState) : Except String FileState :=
  if t ∈ ALLOWED_NAME_TYPES then Except.ok (FileState.contents t)
  else Except.error ("unknown name-type " ++ t)

-- ---------- vlan id parsing ----------

/-- Continuation of a Python decimal integer literal: digits, with single
underscores allowed between digits, accumulating the value. -/
def parseDigitsGo (acc : Nat) : List Char → Option Nat
  | [] => some acc
  | c :: r =>
    if c.isDigit then parseDigitsGo (acc * 10 + (c.toNat - 48)) r
    else if c = '_' then
      match r with
      | [] => none
      | d :: r2 => if d.isDigit then parseDigitsGo (acc * 10 + (d.toNat - 48)) r2 else none
    else none

/-- A nonempty digit run (single underscores allowed between digits). -/
def parseDigitsU : List Char → Option Nat
  | [] => none
  | c :: r => if c.isDigit then parseDigitsGo (c.toNat - 48) r else none

/-- Python `int(s, 10)` (ASCII approximation): strip whitespace, optional sign,
nonempty decimal digit run; `none` models `ValueError`. -/
def pythonParseInt10 (s : String) : Option Int :=
  match (pyStrip s).data with
  | [] => none
  | c :: r =>
    if c = '+' then (parseDigitsU r).map Int.ofNat
    else if c = '-' then (parseDigitsU r).map (fun n => -(Int.ofNat n))
    else (parseDigitsU (c :: r)).map Int.ofNat

/-- `parse_vlan_id` from vconfig.py. -/
def parse_vlan_id (s : String) : Except String Int :=
  match pythonParseInt10 s with
  | none => Except.error ("invalid vlan_id " ++ s ++ " (use decimal)")
  | some vid =>
    if 0 ≤ vid ∧ vid ≤ 4094 then Except.ok vid
    else Except.error "vlan_id must be in range 0..4094"

-- ---------- vlan name derivation ----------

/-- `vlan_name` from vconfig.py. -/
def vlan_name (parent : String) (vid : Int) (name_type : String) : String :=
  if name_type = "VLAN_PLUS_VID" then "vlan" ++ pad4 vid
  else if name_type = "VLAN_PLUS_VID_NO_PAD" then "vlan" ++ intToDecimal vid
  else if name_type = "DEV_PLUS_VID" then parent ++ "." ++ pad4 vid
  else if name_type = "DEV_PLUS_VID_NO_PAD" then parent ++ "." ++ intToDecimal vid
  else parent ++ "." ++ intToDecimal vid

-- ---------- subcommand handlers ----------

/-- `cmd_add` from vconfig.py: parse the vlan id, read the naming scheme, derive
the name, build the base ip(8) command and run it through the recovery
protocol.  (`ensure_8021q` touches only kernel-module state and is not
modelled.)  Errors of `parse_vlan_id`/`read_name_type` propagate. -/
def cmd_add (exec : Nat → ExecResult) (isatty : Bool) (inputs : List String)
    (st : FileState) (args : List String) :
    Except String (Outcome × List (List String)) :=
  match args with
  | [parent, vid_s] =>
    match parse_vlan_id vid_s with
    | Except.error e => Except.error e
    | Except.ok vid =>
      match read_name_type st with
      | Except.error e => Except.error e
      | Except.ok nt =>
        let name := vlan_name parent vid nt
        let base := ["ip", "link", "add", "link", parent, "name", name,
                     "type", "vlan", "id", intToDecimal vid]
        Except.ok (run_ip_with_ifname_retry exec isatty inputs base (some vid))
  | _ => Except.error "usage: add [interface-name] [vlan_id]"

/-- `cmd_rem` from vconfig.py: the argument vector handed to `run`, or the
`die` message on a wrong argument count. -/
def cmd_rem (args : List String) : Except String (List String) :=
  match args with
  | [dev] => Except.ok ["ip", "link", "delete", dev]
  | _ => Except.error "usage: rem [vlan-name]"

/-- `cmd_set_name_type` from vconfig.py. -/
def cmd_set_name_type (args : List String) (st : FileState) : Except String FileState :=
  match args with
  | [t] => write_name_type t st
  | _ => Except.error "usage: set_name_type [name-type]"

/-- `_on_off` from vconfig.py. -/
def _on_off (v : String) : Except String String :=
  if v = "0" ∨ v = "1" then Except.ok (if v = "1" then "on" else "off")
  else Except.error "flag value must be 0 or 1"

/-- The literal dict `mapping` in `cmd_set_flag`, accessed with `.get`. -/
def flagMapping (flagnum : String) : Option String :=
  if flagnum = "1" then some "reorder_hdr"
  else if flagnum = "2" then some "gvrp"
  else if flagnum = "3" then some "mvrp"
  else if flagnum = "4" then some "loose_binding"
  else none

/-- `cmd_set_flag` from vconfig.py: the argument vector handed to `run`, or the
`die` message.  In the source, `_on_off(val)` is evaluated while building the
argument list, so its `die` fires before any command is executed. -/
def cmd_set_flag (args : List String) : Except String (List String) :=
  match args with
  | [dev, val] =>
    (_on_off val).map
      (fun o => ["ip", "link", "set", "dev", dev, "type", "vlan", "reorder_hdr", o])
  | [dev, flagnum, val] =>
    match flagMapping flagnum with
    | none =>
      Except.error "flag-num must be one of 1(reorder_hdr), 2(gvrp), 3(mvrp), 4(loose_binding)"
    | some flag =>
      (_on_off val).map
        (fun o => ["ip", "link", "set", "dev", dev, "type", "vlan", flag, o])
  | _ => Except.error "usage: set_flag [vlan-name] [flag-num] [0|1] (or) set_flag [vlan-name] [0|1]"

/-- `cmd_set_egress_map` from vconfig.py: both priority arguments must parse as
Python integers; the map operand is the *original* strings joined by a colon. -/
def cmd_set_egress_map (args : List String) : Except String (List String) :=
  match args with
  | [dev, skb, qos] =>
    if (pythonParseInt10 skb).isSome ∧ (pythonParseInt10 qos).isSome then
      Except.ok ["ip", "link", "set", "dev", dev, "type", "vlan",
                 "egress-qos-map", skb ++ ":" ++ qos]
    else Except.error "skb_priority and vlan_qos must be integers"
  | _ => Except.error "usage: set_egress_map [vlan-name] [skb_priority] [vlan_qos]"

/-- `cmd_set_ingress_map` from vconfig.py: ip(8) expects `qos:skb` for ingress,
so the operand order is swapped relative to the argument order. -/
def cmd_set_ingress_map (args : List String) : Except String (List String) :=
  match args with
  | [dev, skb, qos] =>
    if (pythonParseInt10 skb).isSome ∧ (pythonParseInt10 qos).isSome then
      Except.ok ["ip", "link", "set", "dev", dev, "type", "vlan",
                 "ingress-qos-map", qos ++ ":" ++ skb]
    else Except.error "skb_priority and vlan_qos must be integers"
  | _ => Except.error "usage: set_ingress_map [vlan-name] [skb_priority] [vlan_qos]"

-- ---------- concrete fixtures used by the witness theorems ----------

/-- An oracle whose first execution fails with the invalid-ifname signature and
whose every later execution fails with an unrelated error. -/
def execInvalidThenOther : Nat → ExecResult := fun k =>
  if k = 0 then ⟨2, "Error: not a valid ifname", ""⟩
  else ⟨2, "RTNETLINK answers: File exists", ""⟩

/-- An oracle whose first execution fails with the invalid-ifname signature and
whose every later execution succeeds. -/
def execInvalidThenOk : Nat → ExecResult := fun k =>
  if k = 0 then ⟨2, "Error: argument is wrong: invalid ifname", ""⟩
  else ⟨0, "", ""⟩

/-- The base command `cmd_add` builds for parent `eth0`, vid 42, and a derived
name that is too long. -/
def cmdFixture : List String :=
  ["ip", "link", "add", "link", "eth0", "name", "averyveryloooongname42",
   "type", "vlan", "id", "42"]

-- ---------- helper lemmas: strings, digits, validity ----------

theorem string_mk_data (l : List Char) : (String.mk l).data = l := rfl

theorem string_mk_length (l : List Char) : (String.mk l).length = l.length := rfl

theorem string_data_append (s t : String) : (s ++ t).data = s.data ++ t.data := by
  cases s; cases t; rfl

theorem string_length_eq_data (s : String) : s.length = s.data.length := rfl

theorem natDigitsRevGo_ne_nil (fuel n : Nat) : natDigitsRevGo fuel n ≠ [] := by
  cases fuel with
  | zero => simp [natDigitsRevGo]
  | succ fuel =>
    simp only [natDigitsRevGo]
    split <;> simp

theorem natDigitsRev_ne_nil (n : Nat) : natDigitsRev n ≠ [] :=
  natDigitsRevGo_ne_nil n n

theorem natDigitsRevGo_mem_lt :
    ∀ fuel n, n ≤ fuel ∨ n < 10 → ∀ d ∈ natDigitsRevGo fuel n, d < 10 := by
  intro fuel
  induction fuel with
  | zero =>
    intro n hn d hd
    simp only [natDigitsRevGo, List.mem_singleton] at hd
    subst hd
    rcases hn with h | h <;> omega
  | succ fuel ih =>
    intro n hn d hd
    simp only [natDigitsRevGo] at hd
    split at hd
    · next h => simp only [List.mem_singleton] at hd; omega
    · next h =>
      simp only [List.mem_cons] at hd
      rcases hd with h1 | h1
      · subst h1; exact Nat.mod_lt _ (by omega)
      · refine ih (n / 10) (Or.inl ?_) d h1
        have : n / 10 < n := Nat.div_lt_self (by omega) (by omega)
        omega

theorem natDigitsRev_mem_lt (n : Nat) : ∀ d ∈ natDigitsRev n, d < 10 :=
  natDigitsRevGo_mem_lt n n (Or.inl le_rfl)

theorem natDigitsRevGo_length_le (k : Nat) :
    ∀ fuel n, n < 10 ^ (k + 1) → (natDigitsRevGo fuel n).length ≤ k + 1 := by
  induction k with
  | zero =>
    intro fuel n hn
    have h10 : n < 10 := by simpa using hn
    cases fuel with
    | zero => simp [natDigitsRevGo]
    | succ fuel => rw [natDigitsRevGo, if_pos h10]; simp
  | succ k ih =>
    intro fuel n hn
    cases fuel with
    | zero => simp [natDigitsRevGo]
    | succ fuel =>
      by_cases h : n < 10
      · rw [natDigitsRevGo, if_pos h]; simp
      · rw [natDigitsRevGo, if_neg h]
        have hd : n / 10 < 10 ^ (k + 1) := by
          rw [Nat.div_lt_iff_lt_mul (by omega : (0:Nat) < 10)]
          calc n < 10 ^ (k + 1 + 1) := hn
            _ = 10 ^ (k + 1) * 10 := by rw [pow_succ]
        simpa using Nat.succ_le_succ (ih fuel (n / 10) hd)

theorem natDigitsRev_length_le (k : Nat) :
    ∀ n, n < 10 ^ (k + 1) → (natDigitsRev n).length ≤ k + 1 :=
  fun n hn => natDigitsRevGo_length_le k n n hn

theorem natToDecimal_length_le (k n : Nat) (hn : n < 10 ^ (k + 1)) :
    (natToDecimal n).length ≤ k + 1 := by
  show ((natDigitsRev n).reverse.map digitChar).length ≤ k + 1
  simpa using natDigitsRev_length_le k n hn

theorem natToDecimal_length_pos (n : Nat) : 1 ≤ (natToDecimal n).length := by
  show 1 ≤ ((natDigitsRev n).reverse.map digitChar).length
  have := natDigitsRev_ne_nil n
  simp only [List.length_map, List.length_reverse]
  cases h : natDigitsRev n with
  | nil => exact absurd h this
  | cons a t => simp

theorem digitChar_props (d : Nat) (hd : d < 10) :
    pyIsSpace (digitChar d) = false ∧ (digitChar d == '/') = false := by
  interval_cases d <;> exact ⟨rfl, rfl⟩

theorem natToDecimal_chars (n : Nat) :
    ∀ c ∈ (natToDecimal n).data, pyIsSpace c = false ∧ (c == '/') = false := by
  intro c hc
  have hc2 : c ∈ (natDigitsRev n).reverse.map digitChar := hc
  simp only [List.mem_map, List.mem_reverse] at hc2
  obtain ⟨d, hd, rfl⟩ := hc2
  exact digitChar_props d (natDigitsRev_mem_lt n d hd)

theorem any_eq_false_of_forall {p : Char → Bool} :
    ∀ (l : List Char), (∀ c ∈ l, p c = false) → l.any p = false := by
  intro l h
  rw [List.any_eq_false]
  intro c hc
  simp [h c hc]

theorem valid_ifname_of (name : String)
    (h1 : name.length ≠ 0) (h2 : name.length ≤ 15)
    (h3 : name.data.any pyIsSpace = false)
    (h4 : name.data.any (fun c => c == '/') = false) :
    _valid_ifname name = true := by
  have hcond : ¬(name.length = 0 ∨ MAX_IFNAME_LEN < name.length) := by
    simp only [MAX_IFNAME_LEN, IFNAMSIZ]
    omega
  simp [_valid_ifname, hcond, h3, h4]

theorem valid_ifname_spec (name : String) (h : _valid_ifname name = true) :
    name ≠ "" ∧ name.length ≤ 15 ∧ name.data.any pyIsSpace = false ∧
      name.data.any (fun c => c == '/') = false := by
  unfold _valid_ifname at h
  by_cases h1 : name.length = 0 ∨ MAX_IFNAME_LEN < name.length
  · rw [if_pos h1] at h; cases h
  · rw [if_neg h1] at h
    simp only [MAX_IFNAME_LEN, IFNAMSIZ] at h1
    push_neg at h1
    by_cases h2 : name.data.any pyIsSpace = true
    · rw [if_pos h2] at h; cases h
    · rw [if_neg h2] at h
      by_cases h3 : name.data.any (fun c => c == '/') = true
      · rw [if_pos h3] at h; cases h
      · rw [Bool.not_eq_true] at h2 h3
        refine ⟨?_, by omega, h2, h3⟩
        intro he
        subst he
        exact h1.1 rfl

/-- The automatic suggestion `vlan<vid>` for a vid below 10000 has at most
8 characters and passes `_valid_ifname`. -/
theorem valid_vlan_suggest (n : Nat) (hn : n < 10 ^ 4) :
    ("vlan" ++ natToDecimal n).length ≤ 8 ∧
      _valid_ifname ("vlan" ++ natToDecimal n) = true := by
  have hlen4 : (natToDecimal n).length ≤ 4 := natToDecimal_length_le 3 n hn
  rw [string_length_eq_data] at hlen4
  have hd : ("vlan" ++ natToDecimal n).data
      = 'v' :: 'l' :: 'a' :: 'n' :: (natToDecimal n).data := by
    rw [string_data_append]
    rfl
  have hL : ("vlan" ++ natToDecimal n).length = 4 + (natToDecimal n).data.length := by
    rw [string_length_eq_data, hd]
    simp only [List.length_cons]
    omega
  have hlen : ("vlan" ++ natToDecimal n).length ≤ 8 := by omega
  refine ⟨hlen, valid_ifname_of _ ?_ (by omega) ?_ ?_⟩
  · omega
  · rw [string_data_append, List.any_append]
    have h1 : ("vlan" : String).data.any pyIsSpace = false := rfl
    have h2 : (natToDecimal n).data.any pyIsSpace = false :=
      any_eq_false_of_forall _ (fun c hc => (natToDecimal_chars n c hc).1)
    rw [h1, h2]
    rfl
  · rw [string_data_append, List.any_append]
    have h1 : ("vlan" : String).data.any (fun c => c == '/') = false := rfl
    have h2 : (natToDecimal n).data.any (fun c => c == '/') = false :=
      any_eq_false_of_forall _ (fun c hc => (natToDecimal_chars n c hc).2)
    rw [h1, h2]
    rfl

theorem pad4_length (v : Int) (h0 : 0 ≤ v) (h1 : v ≤ 4094) : (pad4 v).length = 4 := by
  obtain ⟨n, rfl⟩ := Int.eq_ofNat_of_zero_le h0
  have hn : n ≤ 4094 := by exact_mod_cast h1
  have hlen4 : (natToDecimal n).length ≤ 4 := natToDecimal_length_le 3 n (by omega)
  have hpos : 1 ≤ (natToDecimal n).length := natToDecimal_length_pos n
  show (padZeros (4 - (natToDecimal n).length) ++ natToDecimal n).length = 4
  rw [string_length_eq_data, string_data_append]
  simp only [List.length_append]
  have hz : (padZeros (4 - (natToDecimal n).length)).data.length
      = 4 - (natToDecimal n).length := by
    simp [padZeros]
  rw [hz, ← string_length_eq_data]
  omega

-- ---------- claim C3 ----------

/-- C3: for every parent interface name and VLAN id in [0, 4094], the name
deriver `vlan_name` is pure and returns exactly: "vlan" plus the vid
zero-padded to 4 digits for VLAN_PLUS_VID; "vlan" plus the vid in decimal for
VLAN_PLUS_VID_NO_PAD; parent "." plus the padded vid for DEV_PLUS_VID; parent
"." plus the decimal vid for DEV_PLUS_VID_NO_PAD.  The pad is to exactly four
digits for every in-range vid, and parent=eth0, vid=5 yields eth0.0005 under
DEV_PLUS_VID and eth0.5 under DEV_PLUS_VID_NO_PAD. -/
theorem vlan_name_scheme_table (parent : String) (v : Int)
    (h0 : 0 ≤ v) (h1 : v ≤ 4094) :
    vlan_name parent v "VLAN_PLUS_VID" = "vlan" ++ pad4 v
    ∧ vlan_name parent v "VLAN_PLUS_VID_NO_PAD" = "vlan" ++ intToDecimal v
    ∧ vlan_name parent v "DEV_PLUS_VID" = parent ++ "." ++ pad4 v
    ∧ vlan_name parent v "DEV_PLUS_VID_NO_PAD" = parent ++ "." ++ intToDecimal v
    ∧ (pad4 v).length = 4
    ∧ vlan_name "eth0" 5 "DEV_PLUS_VID" = "eth0.0005"
    ∧ vlan_name "eth0" 5 "DEV_PLUS_VID_NO_PAD" = "eth0.5"
    ∧ vlan_name "eth0" 5 "VLAN_PLUS_VID" = "vlan0005"
    ∧ vlan_name "eth0" 5 "VLAN_PLUS_VID_NO_PAD" = "vlan5" := by
  refine ⟨?_, ?_, ?_, ?_, pad4_length v h0 h1, rfl, rfl, rfl, rfl⟩ <;>
    simp [vlan_name]

/-- Witness for C3 at parent=eth0, vid=5. -/
theorem vlan_name_scheme_table_witness :
    vlan_name "eth0" 5 "DEV_PLUS_VID" = "eth0.0005"
    ∧ vlan_name "eth0" 5 "DEV_PLUS_VID_NO_PAD" = "eth0.5" :=
  have h := vlan_name_scheme_table "eth0" 5 (by decide) (by decide)
  ⟨h.2.2.2.2.2.1, h.2.2.2.2.2.2.1⟩

-- ---------- claim C5 ----------

/-- C5: for every device string and all integer-parsing skb/qos strings, the
egress command has map operand equal to the string skb ":" qos, and the
ingress command has operand qos ":" skb — the swapped order. -/
theorem qos_map_operand_order (dev skb qos : String)
    (hs : (pythonParseInt10 skb).isSome = true)
    (hq : (pythonParseInt10 qos).isSome = true) :
    cmd_set_egress_map [dev, skb, qos]
      = Except.ok ["ip", "link", "set", "dev", dev, "type", "vlan",
                   "egress-qos-map", skb ++ ":" ++ qos]
    ∧ cmd_set_ingress_map [dev, skb, qos]
      = Except.ok ["ip", "link", "set", "dev", dev, "type", "vlan",
                   "ingress-qos-map", qos ++ ":" ++ skb] := by
  constructor <;> simp [cmd_set_egress_map, cmd_set_ingress_map, hs, hq]

/-- Witness for C5: skb=3, qos=7 gives egress operand 3:7 and ingress 7:3. -/
theorem qos_map_operand_order_witness :
    cmd_set_egress_map ["eth0.5", "3", "7"]
      = Except.ok ["ip", "link", "set", "dev", "eth0.5", "type", "vlan",
                   "egress-qos-map", "3:7"]
    ∧ cmd_set_ingress_map ["eth0.5", "3", "7"]
      = Except.ok ["ip", "link", "set", "dev", "eth0.5", "type", "vlan",
                   "ingress-qos-map", "7:3"] :=
  have h := qos_map_operand_order "eth0.5" "3" "7" rfl rfl
  ⟨h.1, h.2⟩

-- ---------- claim C6 ----------

/-- C6: `parse_vlan_id` accepts exactly the strings that parse as a decimal
integer with value in [0, 4094] and reports an error for every other string;
"4095" is rejected, "4094" accepted, and hex/octal-looking strings such as
"0x10" and "0o17" are rejected while "010" is read as decimal ten. -/
theorem parse_vlan_id_exact (s : String) (v : Int) :
    (parse_vlan_id s = Except.ok v
      ↔ pythonParseInt10 s = some v ∧ 0 ≤ v ∧ v ≤ 4094)
    ∧ parse_vlan_id "4094" = Except.ok 4094
    ∧ parse_vlan_id "4095" = Except.error "vlan_id must be in range 0..4094"
    ∧ parse_vlan_id "0x10" = Except.error ("invalid vlan_id " ++ "0x10" ++ " (use decimal)")
    ∧ parse_vlan_id "0o17" = Except.error ("invalid vlan_id " ++ "0o17" ++ " (use decimal)")
    ∧ parse_vlan_id "010" = Except.ok 10 := by
  refine ⟨?_, rfl, rfl, rfl, rfl, rfl⟩
  unfold parse_vlan_id
  cases h : pythonParseInt10 s with
  | none =>
    simp only [h]
    constructor
    · intro he; exact Except.noConfusion he
    · rintro ⟨hw, _⟩; exact Option.noConfusion hw
  | some w =>
    simp only [h]
    by_cases hr : 0 ≤ w ∧ w ≤ 4094
    · rw [if_pos hr]
      constructor
      · intro he
        injection he with he2
        subst he2
        exact ⟨rfl, hr⟩
      · rintro ⟨hw, _⟩
        injection hw with hw2
        subst hw2
        rfl
    · rw [if_neg hr]
      constructor
      · intro he; exact Except.noConfusion he
      · rintro ⟨hw, h2⟩
        injection hw with hw2
        subst hw2
        exact absurd h2 hr

-- ---------- claim C8 ----------

/-- C8: flag-value coercion maps "0" to "off" and "1" to "on"; for every other
token, `cmd_set_flag` reports an error (in both the 2- and 3-argument forms)
and no command vector is produced. -/
theorem flag_value_coercion (v dev flagnum : String)
    (h0 : v ≠ "0") (h1 : v ≠ "1") :
    _on_off "0" = Except.ok "off"
    ∧ _on_off "1" = Except.ok "on"
    ∧ _on_off v = Except.error "flag value must be 0 or 1"
    ∧ cmd_set_flag [dev, v] = Except.error "flag value must be 0 or 1"
    ∧ (∀ f, flagMapping flagnum = some f →
        cmd_set_flag [dev, flagnum, v] = Except.error "flag value must be 0 or 1")
    ∧ (flagMapping flagnum = none →
        cmd_set_flag [dev, flagnum, v]
          = Except.error "flag-num must be one of 1(reorder_hdr), 2(gvrp), 3(mvrp), 4(loose_binding)") := by
  have hoo : _on_off v = Except.error "flag value must be 0 or 1" := by
    unfold _on_off
    rw [if_neg]
    rintro (h | h)
    · exact h0 h
    · exact h1 h
  refine ⟨rfl, rfl, hoo, ?_, ?_, ?_⟩
  · show (_on_off v).map _ = _
    rw [hoo]
    rfl
  · intro f hf
    show (match flagMapping flagnum with
          | none => Except.error "flag-num must be one of 1(reorder_hdr), 2(gvrp), 3(mvrp), 4(loose_binding)"
          | some flag => (_on_off v).map
              (fun o => ["ip", "link", "set", "dev", dev, "type", "vlan", flag, o])) = _
    rw [hf, hoo]
    rfl
  · intro hf
    show (match flagMapping flagnum with
          | none => Except.error "flag-num must be one of 1(reorder_hdr), 2(gvrp), 3(mvrp), 4(loose_binding)"
          | some flag => (_on_off v).map
              (fun o => ["ip", "link", "set", "dev", dev, "type", "vlan", flag, o])) = _
    rw [hf]

/-- Witness for C8 at the non-boolean token "2". -/
theorem flag_value_coercion_witness :
    _on_off "0" = Except.ok "off"
    ∧ _on_off "1" = Except.ok "on"
    ∧ cmd_set_flag ["eth0.5", "2"] = Except.error "flag value must be 0 or 1" :=
  have h := flag_value_coercion "2" "eth0.5" "9" (by decide) (by decide)
  ⟨h.1, h.2.1, h.2.2.2.1⟩

-- ---------- claim C4 ----------

/-- C4 counterexample: a present but unreadable state file does not yield the
default scheme without error — only FileNotFoundError is caught, so the
OSError propagates out of `read_name_type`. -/
theorem read_name_type_unreadable_propagates :
    read_name_type FileState.unreadable = Except.error "PermissionError"
    ∧ read_name_type FileState.unreadable ≠ Except.ok DEFAULT_NAME_TYPE :=
  ⟨rfl, fun h => Except.noConfusion h⟩

/-- C4 (amended): `write_name_type` followed by `read_name_type` returns the
written scheme for every allowed scheme; `read_name_type` returns the default
scheme DEV_PLUS_VID_NO_PAD without error when the state file is missing or
when its stripped content is not one of the four allowed values.  (A present
but unreadable file instead propagates the I/O error.) -/
theorem name_type_store_roundtrip_and_default
    (t : String) (st st2 : FileState)
    (hw : write_name_type t st = Except.ok st2) :
    read_name_type st2 = Except.ok t
    ∧ read_name_type FileState.missing = Except.ok DEFAULT_NAME_TYPE
    ∧ (∀ s, pyStrip s ∉ ALLOWED_NAME_TYPES →
        read_name_type (FileState.contents s) = Except.ok DEFAULT_NAME_TYPE) := by
  refine ⟨?_, rfl, ?_⟩
  · unfold write_name_type at hw
    by_cases hm : t ∈ ALLOWED_NAME_TYPES
    · rw [if_pos hm] at hw
      injection hw with hw2
      subst hw2
      simp only [read_name_type]
      have hstrip : pyStrip t = t := by
        simp only [ALLOWED_NAME_TYPES, List.mem_cons, List.mem_singleton,
          List.not_mem_nil, or_false] at hm
        rcases hm with rfl | rfl | rfl | rfl <;> rfl
      rw [hstrip, if_pos hm]
    · rw [if_neg hm] at hw
      exact Except.noConfusion hw
  · intro s hs
    simp only [read_name_type]
    rw [if_neg hs]

/-- Witness for C4 (amended) at scheme VLAN_PLUS_VID. -/
theorem name_type_store_roundtrip_and_default_witness :
    write_name_type "VLAN_PLUS_VID" FileState.missing
        = Except.ok (FileState.contents "VLAN_PLUS_VID")
    ∧ read_name_type (FileState.contents "VLAN_PLUS_VID") = Except.ok "VLAN_PLUS_VID" :=
  ⟨rfl, (name_type_store_roundtrip_and_default "VLAN_PLUS_VID" FileState.missing
      (FileState.contents "VLAN_PLUS_VID") rfl).1⟩

-- ---------- helper lemmas: listIndex ----------

theorem listIndex_lt (x : String) :
    ∀ (l : List String) (i : Nat), listIndex x l = some i → i < l.length := by
  intro l
  induction l with
  | nil => intro i h; exact Option.noConfusion h
  | cons a t ih =>
    intro i h
    simp only [listIndex] at h
    split at h
    · injection h with h2; subst h2; simp
    · cases hi : listIndex x t with
      | none => rw [hi] at h; exact Option.noConfusion h
      | some j =>
        rw [hi] at h
        injection h with h2
        subst h2
        have := ih j hi
        simp only [List.length_cons]
        omega

theorem listIndex_none_iff (x : String) :
    ∀ (l : List String), listIndex x l = none ↔ x ∉ l := by
  intro l
  induction l with
  | nil => simp [listIndex]
  | cons a t ih =>
    simp only [listIndex]
    by_cases ha : a = x
    · rw [if_pos ha]
      subst ha
      simp
    · rw [if_neg ha]
      cases hi : listIndex x t with
      | none =>
        have hxt : x ∉ t := ih.mp hi
        simp only [hi, Option.map_none']
        simp only [List.mem_cons, true_iff]
        rintro (he | he)
        · exact ha he.symm
        · exact hxt he
      | some j =>
        have hxt : x ∈ t := by
          by_contra hxt
          rw [← ih] at hxt
          rw [hxt] at hi
          exact Option.noConfusion hi
        simp only [hi, Option.map_some']
        constructor
        · intro hsome; exact Option.noConfusion hsome
        · intro hnot; exact absurd (List.mem_cons_of_mem a hxt) hnot

theorem listIndex_set_succ (x y : String) :
    ∀ (l : List String) (i : Nat), listIndex x l = some i →
      listIndex x (l.set (i + 1) y) = some i := by
  intro l
  induction l with
  | nil => intro i h; exact Option.noConfusion h
  | cons a t ih =>
    intro i h
    simp only [listIndex] at h
    split at h
    · next ha =>
      injection h with h2
      subst h2
      show listIndex x (a :: t.set 0 y) = some 0
      simp [listIndex, ha]
    · next ha =>
      cases hi : listIndex x t with
      | none => rw [hi] at h; exact Option.noConfusion h
      | some j =>
        rw [hi] at h
        injection h with h2
        subst h2
        show listIndex x (a :: t.set (j + 1) y) = some (j + 1)
        simp only [listIndex, if_neg ha]
        rw [ih j hi]
        rfl

theorem listIndex_append_left (x : String) :
    ∀ (l1 l2 : List String) (i : Nat), listIndex x l1 = some i →
      listIndex x (l1 ++ l2) = some i := by
  intro l1
  induction l1 with
  | nil => intro l2 i h; exact Option.noConfusion h
  | cons a t ih =>
    intro l2 i h
    simp only [listIndex] at h
    show listIndex x (a :: (t ++ l2)) = some i
    simp only [listIndex]
    split at h
    · next ha => rw [if_pos ha]; exact h
    · next ha =>
      rw [if_neg ha]
      cases hi : listIndex x t with
      | none => rw [hi] at h; exact Option.noConfusion h
      | some j =>
        rw [hi] at h
        rw [ih l2 j hi]
        exact h

theorem listIndex_append_none (x : String) :
    ∀ (l1 l2 : List String), listIndex x l1 = none →
      listIndex x (l1 ++ l2) = (listIndex x l2).map (· + l1.length) := by
  intro l1
  induction l1 with
  | nil =>
    intro l2 h
    simp only [List.nil_append, List.length_nil]
    cases hl : listIndex x l2 <;> simp [hl]
  | cons a t ih =>
    intro l2 h
    simp only [listIndex] at h
    by_cases ha : a = x
    · rw [if_pos ha] at h; exact Option.noConfusion h
    · rw [if_neg ha] at h
      have ht : listIndex x t = none := by
        cases hi : listIndex x t with
        | none => rfl
        | some j => rw [hi] at h; exact Option.noConfusion h
      show listIndex x (a :: (t ++ l2)) = _
      simp only [listIndex, if_neg ha]
      rw [ih l2 ht]
      cases hl : listIndex x l2 with
      | none => rfl
      | some j =>
        simp only [Option.map_some', List.length_cons]
        congr 1

theorem extract_eq_of_index (cmd : List String) (i : Nat)
    (h : listIndex "name" cmd = some i) (hlt : i + 1 < cmd.length) :
    _extract_name_from_cmd cmd = some (cmd[i + 1]) := by
  simp only [_extract_name_from_cmd, h]
  first
  | rfl
  | rw [dif_pos hlt]

-- ---------- claim C9 ----------

/-- C9: for every command vector and name, extracting the name token after the
rewrite yields exactly the injected name — whether the vector already has a
"name" token (successor replaced), has a "type" token ("name n" inserted
before it), or neither ("name n" appended). -/
theorem extract_after_replace_roundtrip (cmd : List String) (n : String) :
    _extract_name_from_cmd (_replace_or_inject_name cmd n) = some n := by
  unfold _replace_or_inject_name
  cases hname : listIndex "name" cmd with
  | some i =>
    have hilt : i < cmd.length := listIndex_lt _ _ _ hname
    show _extract_name_from_cmd
        (if i + 1 < cmd.length then cmd.set (i + 1) n else cmd ++ [n]) = some n
    by_cases hlt : i + 1 < cmd.length
    · rw [if_pos hlt]
      have hidx := listIndex_set_succ "name" n cmd i hname
      have hlen : (cmd.set (i + 1) n).length = cmd.length := List.length_set cmd (i + 1) n
      have hlt2 : i + 1 < (cmd.set (i + 1) n).length := by rw [hlen]; exact hlt
      rw [extract_eq_of_index _ i hidx hlt2]
      congr 1
      exact List.getElem_set_self hlt2
    · rw [if_neg hlt]
      have hi1 : i + 1 = cmd.length := by omega
      have hidx := listIndex_append_left "name" cmd [n] i hname
      have hlt2 : i + 1 < (cmd ++ [n]).length := by
        simp only [List.length_append, List.length_singleton]
        omega
      rw [extract_eq_of_index _ i hidx hlt2]
      congr 1
      rw [List.getElem_append_right (by omega)]
      simp [hi1]
  | none =>
    cases htype : listIndex "type" cmd with
    | some j =>
      have hjlt : j < cmd.length := listIndex_lt _ _ _ htype
      have htake : listIndex "name" (cmd.take j) = none := by
        rw [listIndex_none_iff]
        intro hmem
        exact (listIndex_none_iff _ _).mp hname (List.mem_of_mem_take hmem)
      have hlen_take : (cmd.take j).length = j := by
        rw [List.length_take]
        omega
      show _extract_name_from_cmd (cmd.take j ++ ["name", n] ++ cmd.drop j) = some n
      rw [List.append_assoc]
      have hmid : ("name" :: n :: cmd.drop j) = ["name", n] ++ cmd.drop j := rfl
      have hidx : listIndex "name" (cmd.take j ++ (["name", n] ++ cmd.drop j)) = some j := by
        rw [listIndex_append_none _ _ _ htake]
        have h0 : listIndex "name" (["name", n] ++ cmd.drop j) = some 0 := by
          simp [listIndex]
        rw [h0]
        simp [hlen_take]
      have hlt2 : j + 1 < (cmd.take j ++ (["name", n] ++ cmd.drop j)).length := by
        simp only [List.length_append, List.length_cons]
        omega
      rw [extract_eq_of_index _ j hidx hlt2]
      congr 1
      rw [List.getElem_append_right (by omega)]
      simp [hlen_take]
    | none =>
      show _extract_name_from_cmd (cmd ++ ["name", n]) = some n
      have hidx : listIndex "name" (cmd ++ ["name", n]) = some cmd.length := by
        rw [listIndex_append_none _ _ _ hname]
        have h0 : listIndex "name" ["name", n] = some 0 := by simp [listIndex]
        rw [h0]
        simp
      have hlt2 : cmd.length + 1 < (cmd ++ ["name", n]).length := by
        simp only [List.length_append, List.length_cons]
        omega
      rw [extract_eq_of_index _ cmd.length hidx hlt2]
      congr 1
      rw [List.getElem_append_right (by omega)]
      simp

-- ---------- helper lemmas: the recovery state machine ----------

theorem interactiveRetryLoop_eof (exec : Nat → ExecResult) (sugg : Option String)
    (k : Nat) (c ins : List String)
    (h : _prompt_for_ifname sugg ins = none) :
    interactiveRetryLoop exec sugg k c ins
      = (Outcome.die "Aborted: no valid interface name provided." 1, []) := by
  rw [interactiveRetryLoop]
  split
  · rfl
  · next n2 rest2 heq => rw [h] at heq; exact Option.noConfusion heq

theorem interactiveRetryLoop_success (exec : Nat → ExecResult) (sugg : Option String)
    (k : Nat) (c ins : List String) (n : String) (rest : List String)
    (h : _prompt_for_ifname sugg ins = some (n, rest))
    (hrc : (exec k).returncode = 0) :
    interactiveRetryLoop exec sugg k c ins
      = (Outcome.ok n, [_replace_or_inject_name c n]) := by
  rw [interactiveRetryLoop]
  split
  · next heq => rw [h] at heq; exact Option.noConfusion heq
  · next n2 rest2 heq =>
    rw [h] at heq
    injection heq with heq2
    injection heq2 with hn hrest
    subst hn
    simp [hrc]

theorem interactiveRetryLoop_reject (exec : Nat → ExecResult) (sugg : Option String)
    (k : Nat) (c ins : List String) (n : String) (rest : List String)
    (h : _prompt_for_ifname sugg ins = some (n, rest))
    (hrc : (exec k).returncode ≠ 0)
    (hsig : _INVALID_IFNAME_RE_search ((exec k).stderr ++ (exec k).stdout) = true) :
    interactiveRetryLoop exec sugg k c ins
      = ((interactiveRetryLoop exec sugg (k + 1) (_replace_or_inject_name c n) rest).1,
         _replace_or_inject_name c n
           :: (interactiveRetryLoop exec sugg (k + 1) (_replace_or_inject_name c n) rest).2) := by
  rw [interactiveRetryLoop]
  split
  · next heq => rw [h] at heq; exact Option.noConfusion heq
  · next n2 rest2 heq =>
    rw [h] at heq
    injection heq with heq2
    injection heq2 with hn hrest
    subst hn
    subst hrest
    simp [hrc, hsig]

theorem interactiveRetryLoop_other_failure (exec : Nat → ExecResult) (sugg : Option String)
    (k : Nat) (c ins : List String) (n : String) (rest : List String)
    (h : _prompt_for_ifname sugg ins = some (n, rest))
    (hrc : (exec k).returncode ≠ 0)
    (hsig : _INVALID_IFNAME_RE_search ((exec k).stderr ++ (exec k).stdout) = false) :
    interactiveRetryLoop exec sugg k c ins
      = (Outcome.die (dieMsgOf (exec k).stderr (_replace_or_inject_name c n)) 1,
         [_replace_or_inject_name c n]) := by
  rw [interactiveRetryLoop]
  split
  · next heq => rw [h] at heq; exact Option.noConfusion heq
  · next n2 rest2 heq =>
    rw [h] at heq
    injection heq with heq2
    injection heq2 with hn hrest
    subst hn
    simp [hrc, hsig]

/-- Entry into the interactive loop: first execution fails with the
invalid-ifname signature while stdin is a terminal. -/
theorem run_ip_interactive_entry (exec : Nat → ExecResult)
    (inputs cmd : List String) (vid : Option Int)
    (h0 : (exec 0).returncode ≠ 0)
    (hm : _INVALID_IFNAME_RE_search ((exec 0).stderr ++ (exec 0).stdout) = true) :
    run_ip_with_ifname_retry exec true inputs cmd vid
      = ((interactiveRetryLoop exec (vid.map (fun v => "vlan" ++ intToDecimal v)) 1 cmd inputs).1,
         cmd :: (interactiveRetryLoop exec (vid.map (fun v => "vlan" ++ intToDecimal v)) 1 cmd inputs).2) := by
  simp [run_ip_with_ifname_retry, h0, hm]

/-- The non-interactive branch: first execution fails with the signature and
stdin is not a terminal; one automatic retry with the fallback name. -/
theorem run_ip_noninteractive_cases (exec : Nat → ExecResult)
    (inputs cmd : List String) (v : Int)
    (h0 : (exec 0).returncode ≠ 0)
    (hm : _INVALID_IFNAME_RE_search ((exec 0).stderr ++ (exec 0).stdout) = true) :
    run_ip_with_ifname_retry exec false inputs cmd (some v)
      = (if (exec 1).returncode = 0
         then (Outcome.ok (if _valid_ifname ("vlan" ++ intToDecimal v)
                           then "vlan" ++ intToDecimal v else "vlan0"),
               [cmd, _replace_or_inject_name cmd
                  (if _valid_ifname ("vlan" ++ intToDecimal v)
                   then "vlan" ++ intToDecimal v else "vlan0")])
         else (Outcome.die (dieMsgOf (exec 0).stderr
                  (_replace_or_inject_name cmd
                    (if _valid_ifname ("vlan" ++ intToDecimal v)
                     then "vlan" ++ intToDecimal v else "vlan0"))) 1,
               [cmd, _replace_or_inject_name cmd
                  (if _valid_ifname ("vlan" ++ intToDecimal v)
                   then "vlan" ++ intToDecimal v else "vlan0")])) := by
  simp [run_ip_with_ifname_retry, h0, hm]

theorem parse_vlan_id_ok_range (s : String) (v : Int)
    (hp : parse_vlan_id s = Except.ok v) : 0 ≤ v ∧ v ≤ 4094 := by
  unfold parse_vlan_id at hp
  cases h : pythonParseInt10 s with
  | none => rw [h] at hp; exact Except.noConfusion hp
  | some w =>
    simp only [h] at hp
    by_cases hr : 0 ≤ w ∧ w ≤ 4094
    · rw [if_pos hr] at hp
      injection hp with h2
      subst h2
      exact hr
    · rw [if_neg hr] at hp
      exact Except.noConfusion hp

theorem prompt_valid (sugg : Option String) :
    ∀ (inputs : List String) (n : String) (rest : List String),
      _prompt_for_ifname sugg inputs = some (n, rest) → _valid_ifname n = true := by
  intro inputs
  induction inputs with
  | nil => intro n rest h; exact Option.noConfusion h
  | cons line tail ih =>
    intro n rest h
    simp only [_prompt_for_ifname] at h
    split at h <;> split at h <;>
      first
      | (injection h with h2; injection h2 with hn hrest; subst hn; assumption)
      | exact ih n rest h

theorem interactiveRetryLoop_prompt_congr (exec : Nat → ExecResult)
    (sugg : Option String) (k : Nat) (c ins1 ins2 : List String)
    (h : _prompt_for_ifname sugg ins1 = _prompt_for_ifname sugg ins2) :
    interactiveRetryLoop exec sugg k c ins1 = interactiveRetryLoop exec sugg k c ins2 := by
  cases hp : _prompt_for_ifname sugg ins1 with
  | none =>
    rw [interactiveRetryLoop_eof exec sugg k c ins1 hp,
      interactiveRetryLoop_eof exec sugg k c ins2 (h.symm.trans hp)]
  | some pr =>
    obtain ⟨n, rest⟩ := pr
    have hp2 : _prompt_for_ifname sugg ins2 = some (n, rest) := h.symm.trans hp
    by_cases hrc : (exec k).returncode = 0
    · rw [interactiveRetryLoop_success exec sugg k c ins1 n rest hp hrc,
        interactiveRetryLoop_success exec sugg k c ins2 n rest hp2 hrc]
    · by_cases hsig : _INVALID_IFNAME_RE_search ((exec k).stderr ++ (exec k).stdout) = true
      · rw [interactiveRetryLoop_reject exec sugg k c ins1 n rest hp hrc hsig,
          interactiveRetryLoop_reject exec sugg k c ins2 n rest hp2 hrc hsig]
      · rw [Bool.not_eq_true] at hsig
        rw [interactiveRetryLoop_other_failure exec sugg k c ins1 n rest hp hrc hsig,
          interactiveRetryLoop_other_failure exec sugg k c ins2 n rest hp2 hrc hsig]

-- ---------- claim C1 ----------

/-- C1: in the non-interactive recovery path of the add subcommand, when the
first execution fails with output matching the invalid-ifname signature and
stdin is not a terminal, exactly one automatic retry is performed (the trace
has exactly the original command and one rewrite), using the name vlan<vid>
or the literal vlan0 if the suggestion fails the validity constraints; if the
single retry also fails for any reason, the reported error text is the first
failure: its stripped stderr — not that of the retry — and the process dies
with exit code 1. -/
theorem add_noninteractive_recovery_single_retry
    (exec : Nat → ExecResult) (inputs cmd : List String) (v : Int)
    (h0 : (exec 0).returncode ≠ 0)
    (hm : _INVALID_IFNAME_RE_search ((exec 0).stderr ++ (exec 0).stdout) = true) :
    (run_ip_with_ifname_retry exec false inputs cmd (some v)).2
        = [cmd, _replace_or_inject_name cmd
            (if _valid_ifname ("vlan" ++ intToDecimal v)
             then "vlan" ++ intToDecimal v else "vlan0")]
    ∧ ((exec 1).returncode = 0 →
        (run_ip_with_ifname_retry exec false inputs cmd (some v)).1
          = Outcome.ok (if _valid_ifname ("vlan" ++ intToDecimal v)
                        then "vlan" ++ intToDecimal v else "vlan0"))
    ∧ ((exec 1).returncode ≠ 0 →
        (run_ip_with_ifname_retry exec false inputs cmd (some v)).1
          = Outcome.die (dieMsgOf (exec 0).stderr
              (_replace_or_inject_name cmd
                (if _valid_ifname ("vlan" ++ intToDecimal v)
                 then "vlan" ++ intToDecimal v else "vlan0"))) 1)
    ∧ ((exec 1).returncode ≠ 0 → pyStrip (exec 0).stderr ≠ "" →
        (run_ip_with_ifname_retry exec false inputs cmd (some v)).1
          = Outcome.die (pyStrip (exec 0).stderr) 1) := by
  rw [run_ip_noninteractive_cases exec inputs cmd v h0 hm]
  by_cases h1 : (exec 1).returncode = 0
  · rw [if_pos h1]
    exact ⟨rfl, fun _ => rfl, fun hne => absurd h1 hne, fun hne _ => absurd h1 hne⟩
  · rw [if_neg h1]
    refine ⟨rfl, fun he => absurd he h1, fun _ => rfl, fun _ hs => ?_⟩
    show Outcome.die (dieMsgOf (exec 0).stderr _) 1
        = Outcome.die (pyStrip (exec 0).stderr) 1
    unfold dieMsgOf
    rw [if_neg hs]

/-- Witness for C1: a concrete oracle whose first run reports an invalid
ifname and whose retry fails for an unrelated reason, with vid 42. -/
theorem add_noninteractive_recovery_single_retry_witness :
    (run_ip_with_ifname_retry execInvalidThenOther false [] cmdFixture (some 42)).1
        = Outcome.die "Error: not a valid ifname" 1
    ∧ (run_ip_with_ifname_retry execInvalidThenOther false [] cmdFixture (some 42)).2
        = [cmdFixture, _replace_or_inject_name cmdFixture "vlan42"] := by
  have h := add_noninteractive_recovery_single_retry execInvalidThenOther [] cmdFixture 42
    (by decide) (by decide)
  exact ⟨h.2.2.2 (by decide) (by decide), h.1⟩

-- ---------- claim C2 ----------

/-- C2: in the interactive recovery path of the add subcommand (first failure
matches the invalid-ifname signature and stdin is a terminal), control enters
the prompt loop; within the loop, every subsequent execution failure matching
the signature re-prompts on the remaining input, the first successful
execution terminates the loop returning the accepted name, an execution
failure not matching the signature terminates immediately with the failure
text of that very attempt and no further prompting or execution, and closure of the input
stream during a prompt terminates with the message
"Aborted: no valid interface name provided." and the non-zero exit status 1. -/
theorem add_interactive_recovery_loop_behavior
    (exec : Nat → ExecResult) (inputs cmd : List String) (vid : Option Int)
    (h0 : (exec 0).returncode ≠ 0)
    (hm : _INVALID_IFNAME_RE_search ((exec 0).stderr ++ (exec 0).stdout) = true) :
    (run_ip_with_ifname_retry exec true inputs cmd vid
      = ((interactiveRetryLoop exec (vid.map (fun v => "vlan" ++ intToDecimal v)) 1 cmd inputs).1,
         cmd :: (interactiveRetryLoop exec (vid.map (fun v => "vlan" ++ intToDecimal v)) 1 cmd inputs).2))
    ∧ (∀ (sugg : Option String) (k : Nat) (c ins : List String),
        _prompt_for_ifname sugg ins = none →
        interactiveRetryLoop exec sugg k c ins
          = (Outcome.die "Aborted: no valid interface name provided." 1, [])
        ∧ (1 : Int) ≠ 0)
    ∧ (∀ (sugg : Option String) (k : Nat) (c ins : List String) (n : String) (rest : List String),
        _prompt_for_ifname sugg ins = some (n, rest) →
        (exec k).returncode = 0 →
        interactiveRetryLoop exec sugg k c ins
          = (Outcome.ok n, [_replace_or_inject_name c n]))
    ∧ (∀ (sugg : Option String) (k : Nat) (c ins : List String) (n : String) (rest : List String),
        _prompt_for_ifname sugg ins = some (n, rest) →
        (exec k).returncode ≠ 0 →
        _INVALID_IFNAME_RE_search ((exec k).stderr ++ (exec k).stdout) = true →
        interactiveRetryLoop exec sugg k c ins
          = ((interactiveRetryLoop exec sugg (k + 1) (_replace_or_inject_name c n) rest).1,
             _replace_or_inject_name c n
               :: (interactiveRetryLoop exec sugg (k + 1) (_replace_or_inject_name c n) rest).2))
    ∧ (∀ (sugg : Option String) (k : Nat) (c ins : List String) (n : String) (rest : List String),
        _prompt_for_ifname sugg ins = some (n, rest) →
        (exec k).returncode ≠ 0 →
        _INVALID_IFNAME_RE_search ((exec k).stderr ++ (exec k).stdout) = false →
        interactiveRetryLoop exec sugg k c ins
          = (Outcome.die (dieMsgOf (exec k).stderr (_replace_or_inject_name c n)) 1,
             [_replace_or_inject_name c n])) := by
  refine ⟨run_ip_interactive_entry exec inputs cmd vid h0 hm, ?_, ?_, ?_, ?_⟩
  · intro sugg k c ins h
    exact ⟨interactiveRetryLoop_eof exec sugg k c ins h, by decide⟩
  · intro sugg k c ins n rest h hrc
    exact interactiveRetryLoop_success exec sugg k c ins n rest h hrc
  · intro sugg k c ins n rest h hrc hsig
    exact interactiveRetryLoop_reject exec sugg k c ins n rest h hrc hsig
  · intro sugg k c ins n rest h hrc hsig
    exact interactiveRetryLoop_other_failure exec sugg k c ins n rest h hrc hsig

/-- Witness for C2: a concrete oracle entering the interactive loop; the
operator enters a valid short name that the second execution accepts, and an
exhausted input stream dies with the abort message. -/
theorem add_interactive_recovery_loop_behavior_witness :
    run_ip_with_ifname_retry execInvalidThenOk true ["eth0v"] cmdFixture (some 42)
      = (Outcome.ok "eth0v", [cmdFixture, _replace_or_inject_name cmdFixture "eth0v"])
    ∧ interactiveRetryLoop execInvalidThenOk
        ((some (42 : Int)).map (fun v => "vlan" ++ intToDecimal v)) 1 cmdFixture []
      = (Outcome.die "Aborted: no valid interface name provided." 1, []) := by
  have h := add_interactive_recovery_loop_behavior execInvalidThenOk ["eth0v"] cmdFixture
    (some 42) (by decide) (by decide)
  constructor
  · rw [h.1]
    have hs := h.2.2.1 ((some (42 : Int)).map (fun v => "vlan" ++ intToDecimal v)) 1
      cmdFixture ["eth0v"] "eth0v" [] (by decide) (by decide)
    rw [hs]
  · exact (h.2.1 ((some (42 : Int)).map (fun v => "vlan" ++ intToDecimal v)) 1
      cmdFixture [] (by decide)).1

-- ---------- claim C7 ----------

/-- C7: every name returned by the interactive prompt satisfies the local
validity constraints — nonempty after substitution of the suggestion, at most
15 characters, no whitespace character, no slash; a locally invalid input
line causes a re-prompt without any external command being executed (the loop
state, including the execution counter, is unchanged); and when the operator
enters an empty (stripped) line the pre-filled suggestion is the name used. -/
theorem prompt_local_validity (sugg : Option String) (inputs : List String) :
    (∀ (n : String) (rest : List String),
        _prompt_for_ifname sugg inputs = some (n, rest) →
        _valid_ifname n = true
        ∧ n ≠ "" ∧ n.length ≤ 15
        ∧ n.data.any pyIsSpace = false
        ∧ n.data.any (fun c => c == '/') = false)
    ∧ (∀ (exec : Nat → ExecResult) (k : Nat) (cmd : List String) (line : String)
          (rest : List String),
        _valid_ifname (if pyStrip line ≠ "" then pyStrip line else sugg.getD "") = false →
        interactiveRetryLoop exec sugg k cmd (line :: rest)
          = interactiveRetryLoop exec sugg k cmd rest)
    ∧ (∀ (s line : String) (rest : List String),
        sugg = some s → pyStrip line = "" → _valid_ifname s = true →
        _prompt_for_ifname sugg (line :: rest) = some (s, rest)) := by
  refine ⟨?_, ?_, ?_⟩
  · intro n rest h
    have hv : _valid_ifname n = true := prompt_valid sugg inputs n rest h
    obtain ⟨h1, h2, h3, h4⟩ := valid_ifname_spec n hv
    exact ⟨hv, h1, h2, h3, h4⟩
  · intro exec k cmd line rest hbad
    have hbad2 : _valid_ifname (if pyStrip line = "" then sugg.getD "" else pyStrip line)
        = false := by
      simpa [ite_not] using hbad
    have hp : _prompt_for_ifname sugg (line :: rest) = _prompt_for_ifname sugg rest := by
      simp [_prompt_for_ifname, hbad2]
    exact interactiveRetryLoop_prompt_congr exec sugg k cmd _ _ hp
  · intro s line rest hs hline hvs
    subst hs
    simp [_prompt_for_ifname, hline, hvs]

/-- Witness for C7: a locally invalid 16-character entry re-prompts without
executing, and an empty entry falls back to the valid suggestion vlan42. -/
theorem prompt_local_validity_witness :
    interactiveRetryLoop execInvalidThenOk (some "vlan42") 1 cmdFixture
        ["aaaabbbbccccdddd", "x"]
      = interactiveRetryLoop execInvalidThenOk (some "vlan42") 1 cmdFixture ["x"]
    ∧ _prompt_for_ifname (some "vlan42") ["", "y"] = some ("vlan42", ["y"]) := by
  have h := prompt_local_validity (some "vlan42") []
  constructor
  · exact h.2.1 execInvalidThenOk 1 cmdFixture "aaaabbbbccccdddd" ["x"] (by decide)
  · exact h.2.2 "vlan42" "" ["y"] rfl (by decide) (by decide)

-- ---------- claim C10 ----------

/-- C10: for every vid produced by parse_vlan_id — the only vids the add
subcommand can pass to the recovery routine — the suggested fallback name
vlan<vid> has at most 8 characters and passes the validity check (no
whitespace, no slash), so the automatic replacement always uses the
suggestion and the literal-vlan0 replacement branch of the non-interactive
recovery path is never taken. -/
theorem auto_suggestion_always_valid (s : String) (v : Int)
    (hp : parse_vlan_id s = Except.ok v) :
    ("vlan" ++ intToDecimal v).length ≤ 8
    ∧ _valid_ifname ("vlan" ++ intToDecimal v) = true
    ∧ (if _valid_ifname ("vlan" ++ intToDecimal v)
       then "vlan" ++ intToDecimal v else "vlan0") = "vlan" ++ intToDecimal v
    ∧ (∀ (exec : Nat → ExecResult) (inputs cmd : List String),
        (exec 0).returncode ≠ 0 →
        _INVALID_IFNAME_RE_search ((exec 0).stderr ++ (exec 0).stdout) = true →
        (run_ip_with_ifname_retry exec false inputs cmd (some v)).2
          = [cmd, _replace_or_inject_name cmd ("vlan" ++ intToDecimal v)]) := by
  obtain ⟨hge, hle⟩ := parse_vlan_id_ok_range s v hp
  obtain ⟨n, rfl⟩ := Int.eq_ofNat_of_zero_le hge
  have hn : n ≤ 4094 := by exact_mod_cast hle
  have hiv : intToDecimal (n : Int) = natToDecimal n := rfl
  obtain ⟨hl8, hvd⟩ := valid_vlan_suggest n (by norm_num; omega)
  simp only [hiv]
  refine ⟨hl8, hvd, by simp [hvd], ?_⟩
  intro exec inputs cmd h0 hm
  rw [run_ip_noninteractive_cases exec inputs cmd _ h0 hm]
  simp only [hiv]
  by_cases h1 : (exec 1).returncode = 0
  · rw [if_pos h1]
    simp [hvd]
  · rw [if_neg h1]
    simp [hvd]

/-- Witness for C10 at the parsed input "42". -/
theorem auto_suggestion_always_valid_witness :
    ("vlan" ++ intToDecimal 42).length ≤ 8
    ∧ _valid_ifname ("vlan" ++ intToDecimal 42) = true :=
  have h := auto_suggestion_always_valid "42" 42 rfl
  ⟨h.1, h.2.1⟩
